import Mathlib

/-!
Shallow embedding of the conversation-management and retrieval-augmented
answering server of `src/server.py` (a FastAPI service over an in-memory
conversation registry), together with the document-loader template and the
document chunker.

Modelling conventions:
* A Python `Message` dict / pydantic model is the structure `Message`.
* The registry `self.conversations` (a Python list of dicts) is the field
  `conversations` of `ServerState`; each dict becomes a `Conversation`.
* `uuid.uuid4()` and `time.time()` are externalized as parameters of
  `Server.start_new_conversation` (the code treats uuid collisions as
  impossible; distinctness of the supplied ids is a hypothesis where needed).
* Timestamps are modelled as rationals: the code only ever compares them.
* A raised Python exception is modelled as an `Except.error` result paired
  with the state reached at the raise point (in-place mutations performed
  before the raise persist, exactly as in the Python object).
* The llama-index retrieval + generation call `query_engine.query` is an
  oracle parameter `generate : String → Except String String`; a raised
  exception inside it is its `.error` case and is surfaced by `serve` as
  `ServerError.answeringError` (the spec's `AnsweringError`).
* `pandas` row fields that may be NA are `Option String`; `pd.isna` is
  `Option.isNone`.
-/

namespace Meltemi

structure Message where
  role : String
  content : String
deriving DecidableEq, Repr

structure Conversation where
  id : String
  start_time : ℚ
  messages : List Message
deriving DecidableEq, Repr

structure ServerState where
  conversations : List Conversation
deriving DecidableEq, Repr

/-- The error taxonomy of the spec: the `ValueError("Conversation ID ... not
found.")` raised by the store, and any exception escaping the
retrieval/generation call. -/
inductive ServerError where
  | conversationNotFound (conversation_id : String)
  | answeringError (detail : String)
deriving DecidableEq, Repr

/-- Python `str(e)` on the raised exception, as used by the HTTP handlers. -/
def errorDetail : ServerError → String
  | ServerError.conversationNotFound cid => "Conversation ID " ++ cid ++ " not found."
  | ServerError.answeringError d => d

/-- `self.conversations.sort(key=lambda c: c["start_time"], reverse=True)`:
a stable sort, descending by `start_time`. -/
def sortByStartTimeDesc (cs : List Conversation) : List Conversation :=
  cs.mergeSort (fun a b => decide (b.start_time ≤ a.start_time))

/-- `Server.start_new_conversation`, with the generated uuid and the current
time passed in; returns the new id and the updated state. -/
def Server.start_new_conversation (s : ServerState) (freshId : String) (now : ℚ) :
    String × ServerState :=
  (freshId, ⟨sortByStartTimeDesc (s.conversations ++ [⟨freshId, now, []⟩])⟩)

/-- The loop body of `Server.store_message`: walk the registry, append the
message to the first conversation whose id matches, `none` when no id
matches (the `raise` path, which mutates nothing). -/
def storeMessageList (cid : String) (m : Message) : List Conversation → Option (List Conversation)
  | [] => none
  | c :: cs =>
    if c.id = cid then some ({ c with messages := c.messages ++ [m] } :: cs)
    else (storeMessageList cid m cs).map (fun cs2 => c :: cs2)

/-- `Server.store_message`: result together with the state after the call
(unchanged when the id is unknown and the `ValueError` is raised). -/
def Server.store_message (s : ServerState) (cid : String) (m : Message) :
    Except ServerError Unit × ServerState :=
  match storeMessageList cid m s.conversations with
  | some cs => (Except.ok (), ⟨cs⟩)
  | none => (Except.error (ServerError.conversationNotFound cid), s)

/-- `Server.get_conversation`: linear scan for the first matching id. -/
def Server.get_conversation (s : ServerState) (cid : String) :
    Except ServerError (List Message) :=
  match s.conversations.find? (fun c => c.id = cid) with
  | some c => Except.ok c.messages
  | none => Except.error (ServerError.conversationNotFound cid)

/-- `Server.get_all_conversations`: the `{id, start_time}` summaries, in
registry order. -/
def Server.get_all_conversations (s : ServerState) : List (String × ℚ) :=
  s.conversations.map (fun c => (c.id, c.start_time))

/-- `Server.serve`: append the user turn, run retrieval + generation, append
the assistant turn, return the answer. An exception at any point carries the
state reached so far. -/
def Server.serve (s : ServerState) (user_message : String) (conversation_id : String)
    (generate : String → Except String String) :
    Except ServerError String × ServerState :=
  match Server.store_message s conversation_id ⟨"user", user_message⟩ with
  | (Except.error e, s1) => (Except.error e, s1)
  | (Except.ok _, s1) =>
    match generate user_message with
    | Except.error e => (Except.error (ServerError.answeringError e), s1)
    | Except.ok response =>
      match Server.store_message s1 conversation_id ⟨"assistant", response⟩ with
      | (Except.error e, s2) => (Except.error e, s2)
      | (Except.ok _, s2) => (Except.ok response, s2)

/-- A transport-level outcome: a successful JSON body, or the
`HTTPException(status_code, detail)` raised by a handler. -/
inductive HttpResult (α : Type) where
  | ok (body : α)
  | httpError (status_code : Nat) (detail : String)
deriving DecidableEq, Repr

/-- The pydantic `RequestBody` of the `/chat` endpoint. -/
structure RequestBody where
  conversation_id : String
  user_message : String
  messages : List Message
deriving DecidableEq, Repr

/-- The `/chat` handler `query_pipeline`: run `serve`, catch any exception as
`HTTPException(500, str(e))`. -/
def query_pipeline (s : ServerState) (body : RequestBody)
    (generate : String → Except String String) : HttpResult String × ServerState :=
  match Server.serve s body.user_message body.conversation_id generate with
  | (Except.ok response, s1) => (HttpResult.ok response, s1)
  | (Except.error e, s1) => (HttpResult.httpError 500 (errorDetail e), s1)

/-- The `/history/{conversation_id}` handler: any exception becomes
`HTTPException(500, str(e))`. -/
def get_conversation_history (s : ServerState) (cid : String) : HttpResult (List Message) :=
  match Server.get_conversation s cid with
  | Except.ok h => HttpResult.ok h
  | Except.error e => HttpResult.httpError 500 (errorDetail e)

/-- Whether a transport outcome is a client-error response (4xx status). -/
def isClientErrorResponse {α : Type} : HttpResult α → Bool
  | HttpResult.ok _ => false
  | HttpResult.httpError st _ => decide (400 ≤ st ∧ st < 500)

/-- The id is absent from the registry. -/
def idAbsent (s : ServerState) (cid : String) : Prop :=
  ∀ c ∈ s.conversations, c.id ≠ cid

/-- One row of the recipe CSV, restricted to the fields the template reads.
`name`, `Category` and `Ingredients` are accessed unconditionally; the other
five are guarded by `pd.isna`, so they are `Option`s. -/
structure RecipeRow where
  name : String
  category : String
  ingredients : String
  preparation_time : Option String
  total_time : Option String
  number_of_servings : Option String
  keywords : Option String
  instructions : Option String
deriving DecidableEq, Repr

/-- `recipe_text_template` from `Server.load_documents`: sequential
conditional string concatenation, exactly in source order. -/
def recipe_text_template (row : RecipeRow) : String :=
  let t0 := "Η συνταγή για " ++ row.name ++ " είναι ένα " ++ row.category ++
    " που χρειάζεται τα εξής υλικά: " ++ row.ingredients ++ ". "
  let t1 := match row.preparation_time with
    | some v => t0 ++ ("Έχει χρόνο προετοιμασίας " ++ v ++ " ")
    | none => t0
  let t2 := match row.total_time with
    | some v => t1 ++ ("και συνολικά παίρνει " ++ v ++ ". ")
    | none => t1
  let t3 := match row.number_of_servings with
    | some v => t2 ++ ("Οι μερίδες που φτιάχνει είναι " ++ v ++ ". ")
    | none => t2
  let t4 := match row.keywords with
    | some v => t3 ++ ("Χαρακτηριστικές λέξεις που περιγράφουν αυτή τη συνταγή είναι: " ++ v ++ ".")
    | none => t3
  match row.instructions with
  | some v => t4 ++ ("Ο τρόπος προετοιμασίας είναι ο εξής: " ++ v ++ ".")
  | none => t4

/-- The mandatory opening clause (name, category, ingredients). -/
def mainClause (row : RecipeRow) : String :=
  "Η συνταγή για " ++ row.name ++ " είναι ένα " ++ row.category ++
    " που χρειάζεται τα εξής υλικά: " ++ row.ingredients ++ ". "

/-- Preparation-time clause, present exactly when the field is. -/
def prepTimeClause (row : RecipeRow) : Option String :=
  row.preparation_time.map (fun v => "Έχει χρόνο προετοιμασίας " ++ v ++ " ")

/-- Total-time clause, present exactly when the field is. -/
def totalTimeClause (row : RecipeRow) : Option String :=
  row.total_time.map (fun v => "και συνολικά παίρνει " ++ v ++ ". ")

/-- Serving-count clause, present exactly when the field is. -/
def servingsClause (row : RecipeRow) : Option String :=
  row.number_of_servings.map (fun v => "Οι μερίδες που φτιάχνει είναι " ++ v ++ ". ")

/-- Keywords clause, present exactly when the field is. -/
def keywordsClause (row : RecipeRow) : Option String :=
  row.keywords.map
    (fun v => "Χαρακτηριστικές λέξεις που περιγράφουν αυτή τη συνταγή είναι: " ++ v ++ ".")

/-- Instructions clause, present exactly when the field is. -/
def instructionsClause (row : RecipeRow) : Option String :=
  row.instructions.map (fun v => "Ο τρόπος προετοιμασίας είναι ο εξής: " ++ v ++ ".")

/-- The rendered clauses in the template's fixed order: the mandatory clause,
then each optional clause exactly when its field is present. -/
def recipeClauses (row : RecipeRow) : List String :=
  mainClause row ::
    ([prepTimeClause row, totalTimeClause row, servingsClause row,
      keywordsClause row, instructionsClause row].filterMap id)

/-- A Document of the ingestion pass: a raw text passage. -/
structure Document where
  text : String
deriving DecidableEq, Repr

/-- The inner `batch` generator of `Server.chunk_documents`: successive
groups of up to `n` elements (`list(islice(it, n))` until empty). -/
def batchList {α : Type} (n : Nat) (l : List α) : List (List α) :=
  if (l.take n).isEmpty then []
  else l.take n :: batchList n (l.drop n)
termination_by l.length
decreasing_by
  rename_i h
  have hn : n ≠ 0 := by rintro rfl; simp at h
  have hl : l ≠ [] := by rintro rfl; simp at h
  have hpos : 0 < l.length := List.length_pos.mpr hl
  simp only [List.length_drop]
  omega

/-- `Server.chunk_documents`: run the semantic splitter on each batch and
concatenate the per-batch node lists. The splitter (a
`SemanticSplitterNodeParser` with fixed buffer size and percentile threshold)
is an oracle parameter. -/
def Server.chunk_documents {κ : Type} (splitter : List Document → List κ)
    (documents : List Document) (batch_size : Nat) : List κ :=
  ((batchList batch_size documents).map splitter).flatten

/-- A registry-mutating operation of the Conversation Store. -/
inductive Op where
  | startNew (freshId : String) (now : ℚ)
  | store (cid : String) (m : Message)
deriving DecidableEq, Repr

/-- Apply one operation to the state (a failing `store` raises and leaves the
registry unchanged). -/
def applyOp (s : ServerState) : Op → ServerState
  | Op.startNew i t => (Server.start_new_conversation s i t).2
  | Op.store cid m => (Server.store_message s cid m).2

/-- Run a sequence of operations from a state. -/
def runOps (s : ServerState) (ops : List Op) : ServerState :=
  ops.foldl applyOp s

/-- Run a sequence of `start_new_conversation` calls (each with its generated
uuid and current time), collecting the returned ids. -/
def runStarts (s : ServerState) : List (String × ℚ) → ServerState × List String
  | [] => (s, [])
  | p :: ps =>
    let r := Server.start_new_conversation s p.1 p.2
    let rest := runStarts r.2 ps
    (rest.1, r.1 :: rest.2)

/-- Store a sequence of messages into one conversation, in order. -/
def storeAll (s : ServerState) (cid : String) (ms : List Message) : ServerState :=
  ms.foldl (fun st m => (Server.store_message st cid m).2) s

/-- The registry's summary list is descending in start time. -/
def summariesSortedDesc (s : ServerState) : Prop :=
  List.Pairwise (fun a b : String × ℚ => b.2 ≤ a.2) (Server.get_all_conversations s)

/-- Concatenation of rendered clauses, in order. -/
def concatClauses : List String → String
  | [] => ""
  | c :: cs => c ++ concatClauses cs

/-- The template as the spec states it: the rendered clauses of
`recipeClauses`, concatenated in the template's fixed order. -/
def recipe_text_clauses (row : RecipeRow) : String :=
  concatClauses (recipeClauses row)

/-- When no conversation has the id, the store loop reaches the raise. -/
theorem storeMessageList_eq_none (cid : String) (m : Message) :
    ∀ cs : List Conversation, (∀ c ∈ cs, c.id ≠ cid) → storeMessageList cid m cs = none := by
  intro cs h
  induction cs with
  | nil => rfl
  | cons c cs ih =>
    have hc : ¬c.id = cid := h c (List.mem_cons_self c cs)
    have ht := ih (fun d hd => h d (List.mem_cons_of_mem c hd))
    simp [storeMessageList, hc, ht]

/-- Appending to the first conversation matching the id: the stored message
lands at the end of exactly that conversation's log, and every conversation's
id and start time are untouched. -/
theorem storeMessageList_find (cid : String) (m : Message) :
    ∀ (cs : List Conversation) (c : Conversation),
      cs.find? (fun c2 => c2.id = cid) = some c →
      ∃ cs2, storeMessageList cid m cs = some cs2 ∧
        cs2.find? (fun c2 => c2.id = cid) =
          some { c with messages := c.messages ++ [m] } ∧
        cs2.map (fun c2 => (c2.id, c2.start_time)) =
          cs.map (fun c2 => (c2.id, c2.start_time)) := by
  intro cs
  induction cs with
  | nil => intro c h; simp [List.find?] at h
  | cons c0 cs ih =>
    intro c h
    by_cases hc : c0.id = cid
    · rw [List.find?_cons_of_pos cs (by simpa using hc)] at h
      obtain rfl : c0 = c := by simpa using h
      refine ⟨{ c0 with messages := c0.messages ++ [m] } :: cs, ?_, ?_, by simp⟩
      · simp [storeMessageList, hc]
      · exact List.find?_cons_of_pos cs (by simpa using hc)
    · rw [List.find?_cons_of_neg cs (by simpa using hc)] at h
      obtain ⟨cs2, hstore, hfind, hmap⟩ := ih c h
      refine ⟨c0 :: cs2, ?_, ?_, by simpa using hmap⟩
      · simp [storeMessageList, hc, hstore]
      · rw [List.find?_cons_of_neg cs2 (by simpa using hc)]
        exact hfind

/-- Reading back after one append: the message is at the end of the log. -/
theorem store_message_get (s : ServerState) (cid : String) (m : Message)
    (old : List Message) (h : Server.get_conversation s cid = Except.ok old) :
    Server.get_conversation (Server.store_message s cid m).2 cid =
      Except.ok (old ++ [m]) := by
  unfold Server.get_conversation at h ⊢
  rcases hf : s.conversations.find? (fun c => c.id = cid) with _ | c
  · rw [hf] at h; exact absurd h (by simp)
  · rw [hf] at h
    have hold : c.messages = old := by simpa using h
    obtain ⟨cs2, hstore, hfind, _⟩ := storeMessageList_find cid m s.conversations c hf
    simp [Server.store_message, hstore, hfind, hold]

/-- C1: `answer`/`serve` on an id absent from the registry fails with
`ConversationNotFoundError` before any retrieval or generation work (the
result is independent of the generation oracle) and leaves the registry
unchanged: no conversation is created as a side effect. -/
theorem serve_unknown_id (s : ServerState) (cid user_message : String)
    (generate : String → Except String String) (habs : idAbsent s cid) :
    Server.serve s user_message cid generate =
      (Except.error (ServerError.conversationNotFound cid), s) := by
  have hstore := storeMessageList_eq_none cid ⟨"user", user_message⟩ s.conversations habs
  simp [Server.serve, Server.store_message, hstore]

theorem serve_unknown_id_witness :
    Server.serve ⟨[⟨"a", 1, []⟩]⟩ "hi" "b" (fun _ => Except.ok "yo") =
      (Except.error (ServerError.conversationNotFound "b"), ⟨[⟨"a", 1, []⟩]⟩) :=
  serve_unknown_id ⟨[⟨"a", 1, []⟩]⟩ "b" "hi" (fun _ => Except.ok "yo") (by unfold idAbsent; decide)

/-- C2: on a registered id, when retrieval/generation fails after the user
turn was appended, `serve` fails with `AnsweringError`, the log afterwards
ends with exactly the appended user message, and no assistant message is
appended. -/
theorem serve_generation_failure (s : ServerState) (cid user_message e : String)
    (generate : String → Except String String) (old : List Message)
    (hfound : Server.get_conversation s cid = Except.ok old)
    (hgen : generate user_message = Except.error e) :
    (Server.serve s user_message cid generate).1 =
      Except.error (ServerError.answeringError e) ∧
    Server.get_conversation (Server.serve s user_message cid generate).2 cid =
      Except.ok (old ++ [⟨"user", user_message⟩]) := by
  unfold Server.get_conversation at hfound
  rcases hf : s.conversations.find? (fun c => c.id = cid) with _ | c
  · rw [hf] at hfound; exact absurd hfound (by simp)
  · rw [hf] at hfound
    have hold : c.messages = old := by simpa using hfound
    obtain ⟨cs2, hstore, hfind, _⟩ :=
      storeMessageList_find cid ⟨"user", user_message⟩ s.conversations c hf
    constructor
    · simp [Server.serve, Server.store_message, hstore, hgen]
    · simp [Server.serve, Server.store_message, hstore, hgen,
        Server.get_conversation, hfind, hold]

theorem serve_generation_failure_witness :
    (Server.serve ⟨[⟨"a", 1, []⟩]⟩ "hi" "a" (fun _ => Except.error "boom")).1 =
      Except.error (ServerError.answeringError "boom") ∧
    Server.get_conversation
        (Server.serve ⟨[⟨"a", 1, []⟩]⟩ "hi" "a" (fun _ => Except.error "boom")).2 "a" =
      Except.ok ([] ++ [⟨"user", "hi"⟩]) :=
  serve_generation_failure ⟨[⟨"a", 1, []⟩]⟩ "a" "hi" "boom"
    (fun _ => Except.error "boom") [] rfl rfl

/-- C3: on an id absent from the registry, `store_message` fails with
`ConversationNotFoundError` leaving the registry unchanged, and
`get_conversation` fails with `ConversationNotFoundError`; neither silently
no-ops. -/
theorem store_get_unknown_id (s : ServerState) (cid : String) (m : Message)
    (habs : idAbsent s cid) :
    Server.store_message s cid m =
      (Except.error (ServerError.conversationNotFound cid), s) ∧
    Server.get_conversation s cid =
      Except.error (ServerError.conversationNotFound cid) := by
  have hstore := storeMessageList_eq_none cid m s.conversations habs
  have hfind : s.conversations.find? (fun c => c.id = cid) = none := by
    rw [List.find?_eq_none]
    intro c hcmem
    simpa using habs c hcmem
  exact ⟨by simp [Server.store_message, hstore], by simp [Server.get_conversation, hfind]⟩

theorem store_get_unknown_id_witness :
    Server.store_message ⟨[⟨"a", 1, []⟩]⟩ "b" ⟨"user", "hi"⟩ =
      (Except.error (ServerError.conversationNotFound "b"), ⟨[⟨"a", 1, []⟩]⟩) ∧
    Server.get_conversation ⟨[⟨"a", 1, []⟩]⟩ "b" =
      Except.error (ServerError.conversationNotFound "b") :=
  store_get_unknown_id ⟨[⟨"a", 1, []⟩]⟩ "b" ⟨"user", "hi"⟩ (by unfold idAbsent; decide)

/-- C6: storing a sequence of messages into a registered conversation in
order and then reading it back returns the prior log followed by exactly the
stored messages, in append order, with no reordering and no loss. -/
theorem storeAll_get (s : ServerState) (cid : String) (old ms : List Message)
    (h : Server.get_conversation s cid = Except.ok old) :
    Server.get_conversation (storeAll s cid ms) cid = Except.ok (old ++ ms) := by
  induction ms generalizing s old with
  | nil => simpa [storeAll] using h
  | cons m ms ih =>
    have h1 := store_message_get s cid m old h
    have h2 := ih (Server.store_message s cid m).2 (old ++ [m]) h1
    simpa [storeAll] using h2

theorem storeAll_get_witness :
    Server.get_conversation
        (storeAll ⟨[⟨"a", 1, []⟩]⟩ "a" [⟨"user", "hi"⟩, ⟨"assistant", "yo"⟩]) "a" =
      Except.ok ([] ++ [⟨"user", "hi"⟩, ⟨"assistant", "yo"⟩]) :=
  storeAll_get ⟨[⟨"a", 1, []⟩]⟩ "a" [] [⟨"user", "hi"⟩, ⟨"assistant", "yo"⟩] rfl

/-- The post-insertion sort leaves the registry pairwise descending in
`start_time`. -/
theorem sortByStartTimeDesc_sorted (cs : List Conversation) :
    List.Pairwise (fun a b : Conversation => b.start_time ≤ a.start_time)
      (sortByStartTimeDesc cs) := by
  have h := @List.sorted_mergeSort Conversation
    (fun a b => decide (b.start_time ≤ a.start_time))
    (by
      intro a b c hab hbc
      simp only [decide_eq_true_eq] at hab hbc ⊢
      exact le_trans hbc hab)
    (by
      intro a b
      simp only [Bool.or_eq_true, decide_eq_true_eq]
      exact le_total b.start_time a.start_time)
    cs
  exact h.imp (fun hab => of_decide_eq_true hab)

/-- The post-insertion sort permutes the registry. -/
theorem sortByStartTimeDesc_perm (cs : List Conversation) :
    (sortByStartTimeDesc cs).Perm cs :=
  List.mergeSort_perm cs _

/-- The store loop never changes ids or start times. -/
theorem storeMessageList_summaries (cid : String) (m : Message) :
    ∀ cs cs2, storeMessageList cid m cs = some cs2 →
      cs2.map (fun c => (c.id, c.start_time)) = cs.map (fun c => (c.id, c.start_time)) := by
  intro cs
  induction cs with
  | nil => intro cs2 h; simp [storeMessageList] at h
  | cons c0 cs ih =>
    intro cs2 h
    by_cases hc : c0.id = cid
    · simp only [storeMessageList, if_pos hc] at h
      obtain rfl := (Option.some_inj).mp h
      simp
    · simp only [storeMessageList, if_neg hc] at h
      rcases hrec : storeMessageList cid m cs with _ | cs3
      · rw [hrec] at h; simp at h
      · rw [hrec] at h
        obtain rfl : c0 :: cs3 = cs2 := by simpa using h
        simpa using ih cs3 hrec

/-- `store_message` never changes the summary list. -/
theorem store_message_summaries (s : ServerState) (cid : String) (m : Message) :
    ((Server.store_message s cid m).2).conversations.map (fun c => (c.id, c.start_time)) =
      s.conversations.map (fun c => (c.id, c.start_time)) := by
  unfold Server.store_message
  rcases h : storeMessageList cid m s.conversations with _ | cs2
  · simp
  · simpa using storeMessageList_summaries cid m s.conversations cs2 h

/-- Every operation reachable from a sorted state keeps the summary list
sorted descending. -/
theorem runOps_sorted (ops : List Op) : ∀ s : ServerState, summariesSortedDesc s →
    summariesSortedDesc (runOps s ops) := by
  induction ops with
  | nil => intro s hs; exact hs
  | cons op ops ih =>
    intro s hs
    apply ih
    cases op with
    | startNew i t =>
      show summariesSortedDesc (Server.start_new_conversation s i t).2
      unfold summariesSortedDesc Server.get_all_conversations
      rw [List.pairwise_map]
      exact sortByStartTimeDesc_sorted _
    | store cid m =>
      show summariesSortedDesc (Server.store_message s cid m).2
      unfold summariesSortedDesc Server.get_all_conversations at hs ⊢
      rw [store_message_summaries]
      exact hs

/-- C5: after any finite sequence of `start_new_conversation` and
`store_message` operations from the empty registry, `get_all_conversations`
returns one `{id, start_time}` summary per registered conversation and the
list is sorted by `start_time` descending (most recent first). -/
theorem get_all_conversations_sorted (ops : List Op) :
    Server.get_all_conversations (runOps ⟨[]⟩ ops) =
      (runOps ⟨[]⟩ ops).conversations.map (fun c => (c.id, c.start_time)) ∧
    List.Sorted (fun a b : String × ℚ => b.2 ≤ a.2)
      (Server.get_all_conversations (runOps ⟨[]⟩ ops)) := by
  refine ⟨rfl, ?_⟩
  exact runOps_sorted ops ⟨[]⟩ (by simp [summariesSortedDesc, Server.get_all_conversations])

/-- The ids returned by a run of `start_new_conversation` calls are the
supplied fresh ids, in call order. -/
theorem runStarts_ids : ∀ (calls : List (String × ℚ)) (s : ServerState),
    (runStarts s calls).2 = calls.map Prod.fst
  | [], _ => rfl
  | p :: ps, s => by
    simp [runStarts, Server.start_new_conversation, runStarts_ids ps]

/-- A run of `start_new_conversation` calls inserts exactly one conversation
per call, with the supplied id and time and an empty message log. -/
theorem runStarts_perm : ∀ (calls : List (String × ℚ)) (s : ServerState),
    ((runStarts s calls).1.conversations).Perm
      (s.conversations ++ calls.map (fun p => ⟨p.1, p.2, []⟩))
  | [], s => by simp [runStarts]
  | p :: ps, s => by
    have h1 := runStarts_perm ps (Server.start_new_conversation s p.1 p.2).2
    have h2 : ((Server.start_new_conversation s p.1 p.2).2.conversations ++
        ps.map (fun q => (⟨q.1, q.2, []⟩ : Conversation))).Perm
        ((s.conversations ++ [⟨p.1, p.2, []⟩]) ++
          ps.map (fun q => (⟨q.1, q.2, []⟩ : Conversation))) :=
      (sortByStartTimeDesc_perm _).append (List.Perm.refl _)
    have h3 := h1.trans h2
    simpa [runStarts] using h3

/-- C7: for any sequence of `start_new_conversation` calls whose generated
uuids are fresh (pairwise distinct, which the code assumes of `uuid4`), the
returned ids are pairwise distinct, and each call inserts into the registry a
conversation with that id, the current timestamp as `start_time`, and an
empty message log. -/
theorem start_new_conversation_calls (calls : List (String × ℚ))
    (h : (calls.map Prod.fst).Nodup) :
    (runStarts ⟨[]⟩ calls).2 = calls.map Prod.fst ∧
    (runStarts ⟨[]⟩ calls).2.Nodup ∧
    ((runStarts ⟨[]⟩ calls).1.conversations.map
        (fun c => (c.id, c.start_time, c.messages))).Perm
      (calls.map (fun p => (p.1, p.2, ([] : List Message)))) := by
  refine ⟨runStarts_ids calls _, by rw [runStarts_ids]; exact h, ?_⟩
  have hp := (runStarts_perm calls ⟨[]⟩).map (fun c => (c.id, c.start_time, c.messages))
  simpa [List.map_map, Function.comp] using hp

theorem start_new_conversation_calls_witness :
    (runStarts ⟨[]⟩ [("a", 1), ("b", 2)]).2 = [("a", (1 : ℚ)), ("b", 2)].map Prod.fst ∧
    (runStarts ⟨[]⟩ [("a", 1), ("b", 2)]).2.Nodup ∧
    ((runStarts ⟨[]⟩ [("a", 1), ("b", 2)]).1.conversations.map
        (fun c => (c.id, c.start_time, c.messages))).Perm
      ([("a", (1 : ℚ)), ("b", 2)].map (fun p => (p.1, p.2, ([] : List Message)))) :=
  start_new_conversation_calls [("a", 1), ("b", 2)] (by decide)

/-- C8: the Document Loader template renders each record as the fixed
ordered clause list — the mandatory clause then each optional clause exactly
when its field is present; a record missing the preparation time but with
keywords present renders with no preparation-time clause and with the
keywords clause. -/
theorem recipe_template_renders_clauses (row : RecipeRow) (k : String)
    (hprep : row.preparation_time = none) (hkey : row.keywords = some k) :
    (∀ r : RecipeRow, recipe_text_template r = recipe_text_clauses r) ∧
    prepTimeClause row = none ∧
    keywordsClause row =
      some ("Χαρακτηριστικές λέξεις που περιγράφουν αυτή τη συνταγή είναι: " ++ k ++ ".") ∧
    recipeClauses row =
      mainClause row ::
        ([totalTimeClause row, servingsClause row,
          some ("Χαρακτηριστικές λέξεις που περιγράφουν αυτή τη συνταγή είναι: " ++ k ++ "."),
          instructionsClause row].filterMap id) := by
  refine ⟨?_, by simp [prepTimeClause, hprep], by simp [keywordsClause, hkey], ?_⟩
  · intro r
    rcases r with ⟨n, cat, ing, pt, tt, ns, kw, ins⟩
    rcases pt with _ | v1 <;> rcases tt with _ | v2 <;> rcases ns with _ | v3 <;>
      rcases kw with _ | v4 <;> rcases ins with _ | v5 <;>
      simp [recipe_text_template, recipe_text_clauses, recipeClauses, concatClauses,
        mainClause, prepTimeClause, totalTimeClause, servingsClause, keywordsClause,
        instructionsClause, String.append_assoc, String.append_empty]
  · simp [recipeClauses, prepTimeClause, hprep, keywordsClause, hkey]

theorem recipe_template_renders_clauses_witness :
    (∀ r : RecipeRow, recipe_text_template r = recipe_text_clauses r) ∧
    prepTimeClause ⟨"Μουσακάς", "κυρίως πιάτο", "μελιτζάνες", none, none, none,
        some "παραδοσιακό", none⟩ = none ∧
    keywordsClause ⟨"Μουσακάς", "κυρίως πιάτο", "μελιτζάνες", none, none, none,
        some "παραδοσιακό", none⟩ =
      some ("Χαρακτηριστικές λέξεις που περιγράφουν αυτή τη συνταγή είναι: " ++
        "παραδοσιακό" ++ ".") ∧
    recipeClauses ⟨"Μουσακάς", "κυρίως πιάτο", "μελιτζάνες", none, none, none,
        some "παραδοσιακό", none⟩ =
      mainClause ⟨"Μουσακάς", "κυρίως πιάτο", "μελιτζάνες", none, none, none,
          some "παραδοσιακό", none⟩ ::
        ([totalTimeClause ⟨"Μουσακάς", "κυρίως πιάτο", "μελιτζάνες", none, none, none,
            some "παραδοσιακό", none⟩,
          servingsClause ⟨"Μουσακάς", "κυρίως πιάτο", "μελιτζάνες", none, none, none,
            some "παραδοσιακό", none⟩,
          some ("Χαρακτηριστικές λέξεις που περιγράφουν αυτή τη συνταγή είναι: " ++
            "παραδοσιακό" ++ "."),
          instructionsClause ⟨"Μουσακάς", "κυρίως πιάτο", "μελιτζάνες", none, none, none,
            some "παραδοσιακό", none⟩].filterMap id) :=
  recipe_template_renders_clauses
    ⟨"Μουσακάς", "κυρίως πιάτο", "μελιτζάνες", none, none, none, some "παραδοσιακό", none⟩
    "παραδοσιακό" rfl rfl

/-- The batches tile the document list: concatenated in order they give back
the input. -/
theorem batchList_flatten {α : Type} (B : Nat) (hB : 0 < B) (l : List α) :
    (batchList B l).flatten = l := by
  rw [batchList]
  by_cases h : (l.take B).isEmpty
  · rw [if_pos h]
    have hnil : l = [] := by
      rcases l with _ | ⟨a, as⟩
      · rfl
      · exfalso
        rcases B with _ | B2
        · exact absurd hB (lt_irrefl 0)
        · simp [List.take_succ_cons] at h
    simp [hnil]
  · rw [if_neg h]
    have ih := batchList_flatten B hB (l.drop B)
    rw [List.flatten_cons, ih, List.take_append_drop]
termination_by l.length
decreasing_by
  have hl : l ≠ [] := by rintro rfl; simp at h
  have hpos : 0 < l.length := List.length_pos.mpr hl
  simp only [List.length_drop]
  omega

/-- Every batch produced has at most `B` elements. -/
theorem batchList_length_le {α : Type} (B : Nat) (l : List α) :
    ∀ b ∈ batchList B l, b.length ≤ B := by
  intro b hb
  rw [batchList] at hb
  by_cases h : (l.take B).isEmpty
  · rw [if_pos h] at hb
    simp at hb
  · rw [if_neg h] at hb
    rcases List.mem_cons.mp hb with rfl | h2
    · rw [List.length_take]
      exact min_le_left _ _
    · exact batchList_length_le B (l.drop B) b h2
termination_by l.length
decreasing_by
  have hn : B ≠ 0 := by rintro rfl; simp at h
  have hl : l ≠ [] := by rintro rfl; simp at h
  have hpos : 0 < l.length := List.length_pos.mpr hl
  simp only [List.length_drop]
  omega

/-- C9: for every document sequence and batch size `B > 0`,
`chunk_documents` partitions the documents into consecutive batches of size
at most `B` that cover the whole sequence in order, runs the splitter on each
batch, and returns the concatenation of the per-batch chunk lists. -/
theorem chunk_documents_batching {κ : Type} (splitter : List Document → List κ)
    (documents : List Document) (B : Nat) (hB : 0 < B) :
    (batchList B documents).flatten = documents ∧
    (∀ b ∈ batchList B documents, b.length ≤ B) ∧
    Server.chunk_documents splitter documents B =
      ((batchList B documents).map splitter).flatten :=
  ⟨batchList_flatten B hB documents, batchList_length_le B documents, rfl⟩

theorem chunk_documents_batching_witness :
    (batchList 2 [(⟨"x"⟩ : Document), ⟨"y"⟩, ⟨"z"⟩]).flatten =
      [(⟨"x"⟩ : Document), ⟨"y"⟩, ⟨"z"⟩] ∧
    (∀ b ∈ batchList 2 [(⟨"x"⟩ : Document), ⟨"y"⟩, ⟨"z"⟩], b.length ≤ 2) ∧
    Server.chunk_documents (fun b => [b.length]) [(⟨"x"⟩ : Document), ⟨"y"⟩, ⟨"z"⟩] 2 =
      ((batchList 2 [(⟨"x"⟩ : Document), ⟨"y"⟩, ⟨"z"⟩]).map (fun b => [b.length])).flatten :=
  chunk_documents_batching (fun b => [b.length]) [⟨"x"⟩, ⟨"y"⟩, ⟨"z"⟩] 2 (by decide)

/-- C10: the `/chat` handler's response and state effect depend only on the
body's `conversation_id` and `user_message`: the client-supplied `messages`
list is never read by the server. -/
theorem query_pipeline_ignores_client_messages (s : ServerState) (b1 b2 : RequestBody)
    (generate : String → Except String String)
    (hid : b1.conversation_id = b2.conversation_id)
    (hmsg : b1.user_message = b2.user_message) :
    query_pipeline s b1 generate = query_pipeline s b2 generate := by
  unfold query_pipeline
  rw [hid, hmsg]

theorem query_pipeline_ignores_client_messages_witness :
    query_pipeline ⟨[⟨"a", 1, []⟩]⟩ ⟨"a", "hi", []⟩ (fun _ => Except.ok "yo") =
      query_pipeline ⟨[⟨"a", 1, []⟩]⟩ ⟨"a", "hi", [⟨"assistant", "fake history"⟩]⟩
        (fun _ => Except.ok "yo") :=
  query_pipeline_ignores_client_messages ⟨[⟨"a", 1, []⟩]⟩ ⟨"a", "hi", []⟩
    ⟨"a", "hi", [⟨"assistant", "fake history"⟩]⟩ (fun _ => Except.ok "yo") rfl rfl

/-- C4 counterexample: a fetch-history with an unknown id gets the generic
server-error response with status 500 and the exception text — not a
distinguishable client-error (4xx) response as the claim states. -/
theorem transport_not_found_counterexample :
    get_conversation_history ⟨[]⟩ "missing" =
      HttpResult.httpError 500 "Conversation ID missing not found." ∧
    isClientErrorResponse (get_conversation_history ⟨[]⟩ "missing") = false := by
  exact ⟨rfl, rfl⟩

/-- C4 amended: at the transport boundary every error condition, the
not-found condition included, maps to the generic server-error response with
status 500 carrying `str(e)`; not-found is not mapped to a distinguishable
client error. -/
theorem transport_all_errors_generic_500 (s : ServerState) (cid : String)
    (body : RequestBody) (generate : String → Except String String) :
    (∀ e, Server.get_conversation s cid = Except.error e →
      get_conversation_history s cid = HttpResult.httpError 500 (errorDetail e)) ∧
    (∀ e s1, Server.serve s body.user_message body.conversation_id generate =
        (Except.error e, s1) →
      query_pipeline s body generate = (HttpResult.httpError 500 (errorDetail e), s1)) := by
  constructor
  · intro e he
    simp [get_conversation_history, he]
  · intro e s1 hse
    simp [query_pipeline, hse]

theorem transport_all_errors_generic_500_witness :
    get_conversation_history ⟨[]⟩ "b" =
      HttpResult.httpError 500 (errorDetail (ServerError.conversationNotFound "b")) ∧
    query_pipeline ⟨[]⟩ ⟨"b", "hi", []⟩ (fun _ => Except.ok "yo") =
      (HttpResult.httpError 500 (errorDetail (ServerError.conversationNotFound "b")), ⟨[]⟩) := by
  have h := transport_all_errors_generic_500 ⟨[]⟩ "b" ⟨"b", "hi", []⟩ (fun _ => Except.ok "yo")
  exact ⟨h.1 _ rfl, h.2 _ _ rfl⟩

end Meltemi
